import Mathlib

/- Verification development for the dependency-analysis engine in
   src/background.js of the github_tree_extension repository.

   The JavaScript code is shallowly embedded: JS strings become Lean
   Strings (with character-level helpers on List Char), JS regular
   expressions are embedded via an explicit backtracking matcher with the
   same semantics (ordered alternation, greedy quantifiers with
   backtracking, leftmost match), network fetches become explicit
   Option-valued oracles, and thrown errors become Except. -/

set_option maxHeartbeats 2000000
set_option maxRecDepth 8000

/-- The single-quote character, written via its code point. -/
def sqc : Char := Char.ofNat 39

/-- Single-quote as a one-character string. -/
def quoteS : String := String.mk [sqc]

/-- JS regex class `\s` (the whitespace forms occurring in source lines). -/
def jsSpace (c : Char) : Bool :=
  c = ' ' || c = '\t' || c = '\n' || c = '\r' || c = '\x0b' || c = '\x0c'

/-- JS regex class `\w`, that is `[A-Za-z0-9_]`. -/
def jsWord (c : Char) : Bool := c.isAlpha || c.isDigit || c = '_'

/-- JS regex `.`: any character except a line terminator. -/
def jsAnyChar (c : Char) : Bool := !(c = '\n' || c = '\r' || c.toNat = 8232 || c.toNat = 8233)

/-- Regex abstract syntax. Quantifiers are restricted to character classes,
    which covers every quantifier appearing in the four patterns of
    `parseImports` (src/background.js lines 184, 198, 213, 228). -/
inductive RE where
  | eps
  | ch (c : Char)
  | cls (p : Char → Bool)
  | str (cs : List Char)
  | seq (a b : RE)
  | alt (a b : RE)
  | starCls (p : Char → Bool)
  | plusCls (p : Char → Bool)
  | opt (a : RE)
  | grp (i : Nat) (a : RE)

/-- Capture list: group index paired with the matched characters. -/
abbrev Caps := List (Nat × List Char)

/-- Greedy `cls*`: try consuming `n` characters first, then fewer, then none. -/
def greedyStar (s : List Char) (caps : Caps) (k : List Char → Caps → Option Caps) :
    Nat → Option Caps
  | 0 => k s caps
  | n + 1 =>
    match k (s.drop (n + 1)) caps with
    | some r => some r
    | none => greedyStar s caps k n

/-- Greedy `cls+`: like `greedyStar` but at least one character must be consumed. -/
def greedyPlus (s : List Char) (caps : Caps) (k : List Char → Caps → Option Caps) :
    Nat → Option Caps
  | 0 => none
  | n + 1 =>
    match k (s.drop (n + 1)) caps with
    | some r => some r
    | none => greedyPlus s caps k n

/-- Backtracking matcher in continuation-passing style with JS regex
    semantics: ordered alternation, greedy quantifiers, full backtracking. -/
def mre : RE → List Char → Caps → (List Char → Caps → Option Caps) → Option Caps
  | .eps, s, caps, k => k s caps
  | .ch c, s, caps, k =>
    match s with
    | [] => none
    | a :: rest => if a = c then k rest caps else none
  | .cls p, s, caps, k =>
    match s with
    | [] => none
    | a :: rest => if p a then k rest caps else none
  | .str cs, s, caps, k =>
    if cs.isPrefixOf s then k (s.drop cs.length) caps else none
  | .seq a b, s, caps, k => mre a s caps fun s2 c2 => mre b s2 c2 k
  | .alt a b, s, caps, k =>
    match mre a s caps k with
    | some r => some r
    | none => mre b s caps k
  | .starCls p, s, caps, k => greedyStar s caps k (s.takeWhile p).length
  | .plusCls p, s, caps, k => greedyPlus s caps k (s.takeWhile p).length
  | .opt a, s, caps, k =>
    match mre a s caps k with
    | some r => some r
    | none => k s caps
  | .grp i a, s, caps, k =>
    mre a s caps fun s2 c2 => k s2 ((i, s.take (s.length - s2.length)) :: c2)

/-- Leftmost search: try a match at each start position, as JS `String.match`
    does for an unanchored pattern. -/
def reSearch (r : RE) : List Char → Option Caps
  | [] => mre r [] [] fun _ caps => some caps
  | s@(_ :: rest) =>
    match mre r s [] fun _ caps => some caps with
    | some caps => some caps
    | none => reSearch r rest

/-- Read capture group `i`, `none` when the group did not participate
    (JS: `undefined`). -/
def capGet (caps : Caps) (i : Nat) : Option String :=
  (caps.find? fun pr => pr.1 == i).map fun pr => String.mk pr.2

/-- Literal piece of a regex. -/
def lit (s : String) : RE := .str s.toList

/-- Regex `\s+`. -/
def wsp : RE := .plusCls jsSpace

/-- Regex `\s*`. -/
def wspStar : RE := .starCls jsSpace

/-- Regex `\w+`. -/
def wordPlus : RE := .plusCls jsWord

/-- Regex `\x7b[^\x7d]+\x7d` (a braced binding list). -/
def bracesClause : RE := .seq (.ch '{') (.seq (.plusCls fun c => !(c = '}')) (.ch '}'))

/-- Regex `\*\s+as\s+\w+`. -/
def starAsClause : RE := .seq (.ch '*') (.seq wsp (.seq (lit "as") (.seq wsp wordPlus)))

/-- The binding alternatives of the import regex (braces, star-as, word). -/
def bindClause : RE := .alt bracesClause (.alt starAsClause wordPlus)

/-- Quote class: matches a single or double quote. -/
def quoteCls : RE := .cls fun c => c = sqc || c = '"'

/-- Module-specifier body: one or more characters that are not quotes. -/
def specPlus : RE := .plusCls fun c => !(c = sqc || c = '"')

/-- The optional binding-then-from clause of the JS import regex
    (src/background.js line 184). -/
def importFromClause : RE :=
  .seq (.grp 1 bindClause)
    (.seq (.opt (.seq wspStar (.seq (.ch ',') (.seq wspStar (.grp 2 bindClause)))))
      (.seq wsp (.seq (lit "from") wsp)))

/-- JS regex of line 184: static import with optional binding clause and a
    quoted module specifier (group 3). -/
def importRE : RE :=
  .seq (lit "import")
    (.seq wsp (.seq (.opt importFromClause) (.seq quoteCls (.seq (.grp 3 specPlus) quoteCls))))

/-- Regex alternative `const|let|var`. -/
def declKw : RE := .alt (lit "const") (.alt (lit "let") (lit "var"))

/-- JS regex of line 198: a `require` call bound with const/let/var. -/
def requireCallRE : RE :=
  .seq declKw (.seq wsp (.seq (.grp 1 (.alt wordPlus bracesClause))
    (.seq wspStar (.seq (.ch '=') (.seq wspStar (.seq (lit "require")
      (.seq wspStar (.seq (.ch '(') (.seq wspStar (.seq quoteCls
        (.seq (.grp 2 specPlus) (.seq quoteCls (.seq wspStar (.ch ')'))))))))))))))

/-- Regex `[.\w]+` (a dotted Python module path). -/
def dotWordPlus : RE := .plusCls fun c => c = '.' || jsWord c

/-- JS regex of line 213: Python `from module import symbols`. -/
def pyFromRE : RE :=
  .seq (lit "from") (.seq wsp (.seq (.grp 1 dotWordPlus)
    (.seq wsp (.seq (lit "import") (.seq wsp (.grp 2 (.plusCls jsAnyChar)))))))

/-- JS regex of line 228: Python `import module` with optional alias. -/
def pyImportRE : RE :=
  .seq (lit "import") (.seq wsp (.seq (.grp 1 dotWordPlus)
    (.opt (.seq wsp (.seq (lit "as") (.seq wsp wordPlus))))))

/-- Embeds `line.match(importRegex)` of src/background.js line 184, returning
    groups 1, 2 (possibly undefined) and 3. -/
def importMatch (line : String) : Option (Option String × Option String × String) :=
  (reSearch importRE line.toList).bind fun caps =>
    (capGet caps 3).map fun g3 => (capGet caps 1, capGet caps 2, g3)

/-- Embeds the require-pattern match of src/background.js line 198. -/
def requireMatch (line : String) : Option (String × String) :=
  (reSearch requireCallRE line.toList).bind fun caps =>
    (capGet caps 1).bind fun g1 => (capGet caps 2).map fun g2 => (g1, g2)

/-- Embeds the Python from-import match of src/background.js line 213. -/
def pyFromMatch (line : String) : Option (String × String) :=
  (reSearch pyFromRE line.toList).bind fun caps =>
    (capGet caps 1).bind fun g1 => (capGet caps 2).map fun g2 => (g1, g2)

/-- Embeds the Python import match of src/background.js line 228. -/
def pyImportMatch (line : String) : Option String :=
  (reSearch pyImportRE line.toList).bind fun caps => capGet caps 1

/-- Embeds JS `String.split` with a one-character separator: splits at every
    occurrence, keeps empty pieces, and yields one (possibly empty) piece for
    the empty string. -/
def splitOnChar (sep : Char) : List Char → List (List Char)
  | [] => [[]]
  | c :: rest =>
    let r := splitOnChar sep rest
    if c = sep then [] :: r
    else
      match r with
      | h :: t => (c :: h) :: t
      | [] => [[c]]

/-- String-level wrapper for `splitOnChar`. -/
def jsSplit (s : String) (sep : Char) : List String :=
  (splitOnChar sep s.toList).map String.mk

/-- Embeds `s.split(sep).pop()` (the split list is never empty). -/
def lastSeg (s : String) (sep : Char) : String := (jsSplit s sep).getLastD ""

/-- Embeds `p.split(sep).slice(0, -1).join(sep)` with `sep` = slash, used for
    `targetDir` and `currentDir` in src/background.js lines 176 and 177. -/
def dirOf (p : String) : String := String.intercalate "/" ((jsSplit p '/').dropLast)

/-- Core of `replace(/\.(js|jsx|ts|tsx)$/, Empty)` on a reversed character
    list: removes one trailing JS/TS extension, case-sensitively. -/
def stripJsExtR : List Char → List Char
  | 'x' :: 's' :: 'j' :: '.' :: rest => rest
  | 'x' :: 's' :: 't' :: '.' :: rest => rest
  | 's' :: 'j' :: '.' :: rest => rest
  | 's' :: 't' :: '.' :: rest => rest
  | l => l

/-- Embeds `replace(/\.(js|jsx|ts|tsx)$/, Empty)` (src/background.js
    lines 258 and 262). -/
def stripJsExt (s : String) : String := String.mk (stripJsExtR s.toList.reverse).reverse

/-- Core of `replace(/\.(js|jsx|ts|tsx|py)$/, Empty)` on a reversed list. -/
def stripExtAllR : List Char → List Char
  | 'x' :: 's' :: 'j' :: '.' :: rest => rest
  | 'x' :: 's' :: 't' :: '.' :: rest => rest
  | 's' :: 'j' :: '.' :: rest => rest
  | 's' :: 't' :: '.' :: rest => rest
  | 'y' :: 'p' :: '.' :: rest => rest
  | l => l

/-- Embeds `replace(/\.(js|jsx|ts|tsx|py)$/, Empty)` (src/background.js
    line 107, computing `targetBaseName`). -/
def stripExtAll (s : String) : String := String.mk (stripExtAllR s.toList.reverse).reverse

/-- Core of `replace(/\.py$/, Empty)` on a reversed character list. -/
def stripPyR : List Char → List Char
  | 'y' :: 'p' :: '.' :: rest => rest
  | l => l

/-- Embeds `replace(/\.py$/, Empty)` (src/background.js line 278). -/
def stripPy (s : String) : String := String.mk (stripPyR s.toList.reverse).reverse

/-- Embeds the while loop of `resolveImportPath` (src/background.js
    lines 290 to 295): one `parts.pop()` per leading `../`. -/
def popLoop : List (List Char) → List Char → List (List Char) × List Char
  | parts, '.' :: '.' :: '/' :: rest => popLoop parts.dropLast rest
  | parts, path => (parts, path)

/-- Character-level body of `resolveImportPath` (src/background.js
    lines 286 to 299). -/
def resolveCore : List Char → List Char → List Char
  | '.' :: '/' :: rest, dir => dir ++ '/' :: rest
  | p@('.' :: '.' :: '/' :: _), dir =>
    let pr := popLoop (splitOnChar '/' dir) p
    List.intercalate ['/'] pr.1 ++ '/' :: pr.2
  | p, _ => p

/-- Embeds `resolveImportPath(importPath, currentDir)` of src/background.js
    lines 286 to 299. -/
def resolveImportPath (importPath currentDir : String) : String :=
  String.mk (resolveCore importPath.toList currentDir.toList)

/-- Embeds `importPath.replace(/^\.\//, Empty)`: strips one leading `./`. -/
def stripDotSlash (s : String) : String :=
  match s.toList with
  | '.' :: '/' :: rest => String.mk rest
  | _ => s

/-- Embeds `replace(/\\/g, Slash)`: every backslash becomes a forward slash. -/
def normSlashes (s : String) : String :=
  String.mk (s.toList.map fun c => if c = '\\' then '/' else c)

/-- Embeds `isTargetImport` of src/background.js lines 246 to 270.
    The `targetDir` parameter is declared but unused, exactly as in the JS. -/
def isTargetImport (importPathRaw targetFilePath targetBaseName currentDir targetDir :
    String) : Bool :=
  let importPath := normSlashes (stripDotSlash importPathRaw)
  if importPath = targetFilePath then true
  else if importPath = "./" ++ targetFilePath then true
  else if importPath = "../" ++ targetFilePath then true
  else
    let importBaseName := stripJsExt (lastSeg importPath '/')
    if importBaseName = targetBaseName then
      let resolvedPath := resolveImportPath importPath currentDir
      let targetResolved := stripJsExt targetFilePath
      if resolvedPath = targetResolved then true
      else if resolvedPath = targetFilePath then true
      else false
    else false

/-- Embeds `modulePath.replace(/\./g, Slash)` (src/background.js line 275). -/
def pyModulePath (m : String) : String :=
  String.mk (m.toList.map fun c => if c = '.' then '/' else c)

/-- Embeds JS `String.endsWith`. -/
def endsWithStr (s suffixStr : String) : Bool := suffixStr.toList.isSuffixOf s.toList

/-- Embeds `isPythonTargetImport` of src/background.js lines 273 to 283.
    The `currentDir` parameter is declared but unused, exactly as in the JS. -/
def isPythonTargetImport (modulePath targetFilePath targetBaseName currentDir :
    String) : Bool :=
  let moduleFilePath := pyModulePath modulePath
  let targetPyPath := stripPy targetFilePath
  if moduleFilePath = targetPyPath then true
  else if endsWithStr moduleFilePath ("/" ++ targetBaseName) then true
  else if endsWithStr modulePath ("." ++ targetBaseName) then true
  else false

/-- An entry of the `imports` array built by `parseImports`: mechanism,
    bound symbol text, raw module specifier, 1-based line number. -/
structure ImportRec where
  type : String
  symbol : String
  module : String
  line : Nat
  deriving DecidableEq

/-- Embeds JS `String.trim` (ASCII whitespace at both ends). -/
def jsTrim (s : String) : String :=
  String.mk (((s.toList.dropWhile jsSpace).reverse.dropWhile jsSpace).reverse)

/-- Embeds the body of the per-line closure of `parseImports`
    (src/background.js lines 179 to 240): the four pattern checks applied in
    source order, each pushing one record when its matcher fires and the
    matched specifier refers to the target. -/
def lineImports (line : String) (lineNumber : Nat)
    (targetFilePath targetBaseName currentDir targetDir : String) : List ImportRec :=
  (match importMatch line with
   | some (g1, g2, g3) =>
     if isTargetImport g3 targetFilePath targetBaseName currentDir targetDir then
       [{ type := "import", symbol := ((g1.orElse fun _ => g2).getD "default"),
          module := g3, line := lineNumber }]
     else []
   | none => []) ++
  (match requireMatch line with
   | some (g1, g2) =>
     if isTargetImport g2 targetFilePath targetBaseName currentDir targetDir then
       [{ type := "require", symbol := g1, module := g2, line := lineNumber }]
     else []
   | none => []) ++
  (match pyFromMatch line with
   | some (g1, g2) =>
     if isPythonTargetImport g1 targetFilePath targetBaseName currentDir then
       [{ type := "from-import", symbol := jsTrim g2, module := g1, line := lineNumber }]
     else []
   | none => []) ++
  (match pyImportMatch line with
   | some g1 =>
     if isPythonTargetImport g1 targetFilePath targetBaseName currentDir then
       [{ type := "import", symbol := g1, module := g1, line := lineNumber }]
     else []
   | none => [])

/-- Embeds the `lines.forEach((line, index) => ...)` traversal of
    `parseImports`: `idx` is the 0-based index of the first line in the list. -/
def parseLines (targetFilePath targetBaseName currentDir targetDir : String) :
    Nat → List String → List ImportRec
  | _, [] => []
  | idx, l :: rest =>
    lineImports l (idx + 1) targetFilePath targetBaseName currentDir targetDir ++
      parseLines targetFilePath targetBaseName currentDir targetDir (idx + 1) rest

/-- Embeds `parseImports(content, targetFilePath, targetBaseName,
    currentFilePath)` of src/background.js lines 171 to 243. -/
def parseImports (content targetFilePath targetBaseName currentFilePath : String) :
    List ImportRec :=
  let targetDir := dirOf targetFilePath
  let currentDir := dirOf currentFilePath
  parseLines targetFilePath targetBaseName currentDir targetDir 0 (jsSplit content '\n')

/-- A dependent record as pushed by `analyzeFileForImports` (src/background.js
    lines 142 to 145): the JS object literal has only `file` and `imports`;
    the `depth` field is absent (JS `undefined`), modelled as an `Option`
    that the constructor never sets. The UI layer reads it as
    `dep.depth || 0`. -/
structure DepRecord where
  file : String
  imports : List ImportRec
  depth : Option Nat
  deriving DecidableEq

/-- Embeds `analyzeFileForImports` (src/background.js lines 129 to 153).
    The network fetch of `fetchFileContent` is abstracted by `oracle`
    (`none` = fetch failure or absent file); JS `if (!content)` also treats
    the empty string as falsy. The catch-all error handler returns null,
    which the pure embedding needs no case for. -/
def analyzeFileForImports (oracle : String → Option String)
    (filePath targetFilePath targetBaseName : String) : Option DepRecord :=
  if filePath = targetFilePath then none
  else
    match oracle filePath with
    | none => none
    | some content =>
      if content = "" then none
      else
        let imports := parseImports content targetFilePath targetBaseName filePath
        if imports.length > 0 then
          some { file := filePath, imports := imports, depth := none }
        else none

/-- Embeds the batching loop bound `for (i = 0; i < files.length; i += 10)`
    of `findDependencies`: successive slices of size `n`; the fuel argument
    mirrors the loop bound and is instantiated with the list length. -/
def chunksOf (n : Nat) : Nat → List String → List (List String)
  | _, [] => []
  | 0, _ :: _ => []
  | fuel + 1, l => l.take n :: chunksOf n fuel (l.drop n)

/-- Embeds `findDependencies(repoInfo, files, targetFilePath)` of
    src/background.js lines 104 to 126: batches of 10 are analyzed and each
    non-null result with a nonempty `imports` array is pushed in order.
    The JS consts `targetFileName` and `targetBaseName` (lines 106 and 107)
    are inlined at their single use. -/
def findDependencies (oracle : String → Option String)
    (files : List String) (targetFilePath : String) : List DepRecord :=
  (((chunksOf 10 files.length files).map fun batch =>
    (batch.map fun file =>
      analyzeFileForImports oracle file targetFilePath
        (stripExtAll (lastSeg targetFilePath '/'))).filterMap
      fun result =>
        match result with
        | some r => if r.imports.length > 0 then some r else none
        | none => none)).flatten

/-- Outcome of the JS bracket lookup `extensions[language]` on the object
    literal of src/background.js lines 87 to 93. A plain object literal
    inherits from `Object.prototype`, so the lookup can yield an own array
    value, a truthy non-array value inherited from the prototype chain
    (a function such as `toString`, or the prototype object itself for
    `__proto__`), or `undefined`. -/
inductive ExtLookup where
  | own (exts : List String)
  | inherited
  | undef
  deriving DecidableEq

/-- The property names a plain JS object literal inherits from
    `Object.prototype` (ECMA-262 plus the Annex B accessors implemented by
    the browser); reading any of them yields a truthy non-array value. -/
def objectProtoMembers : List String :=
  ["constructor", "hasOwnProperty", "isPrototypeOf", "propertyIsEnumerable",
   "toLocaleString", "toString", "valueOf", "__defineGetter__",
   "__defineSetter__", "__lookupGetter__", "__lookupSetter__", "__proto__"]

/-- Embeds `extensions[language]` on the object literal of
    src/background.js lines 87 to 93, prototype chain included. -/
def extensionsTable (language : String) : ExtLookup :=
  if language = "javascript" then ExtLookup.own [".js", ".jsx", ".mjs"]
  else if language = "typescript" then ExtLookup.own [".ts", ".tsx"]
  else if language = "python" then ExtLookup.own [".py"]
  else if language = "jsx" then ExtLookup.own [".jsx", ".js"]
  else if language = "tsx" then ExtLookup.own [".tsx", ".ts"]
  else if language ∈ objectProtoMembers then ExtLookup.inherited
  else ExtLookup.undef

/-- The value of the JS const `relevantExts`: either an array (on which
    `includes` works) or a truthy non-array inherited value (on which the
    later `includes` call throws). -/
inductive RelevantExts where
  | arr (exts : List String)
  | nonArray
  deriving DecidableEq

/-- Embeds `extensions[language] || extensions[javascript]`
    (src/background.js line 95): only `undefined` is falsy here, so the
    fallback is taken exactly when the key is absent from the object AND
    from its prototype chain; an inherited truthy non-array short-circuits
    the fallback. -/
def relevantExts (language : String) : RelevantExts :=
  match extensionsTable language with
  | ExtLookup.own exts => RelevantExts.arr exts
  | ExtLookup.inherited => RelevantExts.nonArray
  | ExtLookup.undef => RelevantExts.arr [".js", ".jsx", ".mjs"]

/-- Embeds JS `String.toLowerCase` (ASCII range used here). -/
def lowerStr (s : String) : String := String.mk (s.toList.map Char.toLower)

/-- Embeds `filterFilesByLanguage` (src/background.js lines 86 to 101).
    When `relevantExts` is a non-array (an Object.prototype member was
    looked up), the first invocation of the filter callback throws
    `TypeError: relevantExts.includes is not a function`; with an empty
    file list the callback is never invoked and the filter returns the
    empty list. The `Except` carries the thrown error's message. -/
def filterFilesByLanguage (files : List String) (language : String) :
    Except String (List String) :=
  match relevantExts language with
  | RelevantExts.arr exts =>
    Except.ok (files.filter fun file =>
      let ext := "." ++ lastSeg file '.'
      exts.contains (lowerStr ext))
  | RelevantExts.nonArray =>
    match files with
    | [] => Except.ok []
    | _ :: _ => Except.error "relevantExts.includes is not a function"

/-- Embeds `getRepositoryFiles` (src/background.js lines 49 to 83): the
    GitHub tree fetch (plus its cache) is abstracted by `fetched`; any fetch
    failure is caught and rethrown as the fixed descriptive message. -/
def getRepositoryFiles (fetched : Option (List String)) : Except String (List String) :=
  match fetched with
  | some files => Except.ok files
  | none =>
    Except.error
      "Failed to fetch repository structure. You may need to authenticate for private repos."

/-- The result object of `handleAnalyzeDependencies` (src/background.js
    lines 37 to 41), without the echoed `repoInfo` field. -/
structure AnalysisResult where
  dependencies : List DepRecord
  filesAnalyzed : Nat
  deriving DecidableEq

/-- Embeds `handleAnalyzeDependencies` (src/background.js lines 22 to 46):
    a listing failure propagates as the single error; a TypeError thrown
    inside `filterFilesByLanguage` is caught by the catch block and
    rethrown, so it too reaches the caller as a single error; otherwise the
    complete result object is returned. -/
def handleAnalyzeDependencies (fetched : Option (List String)) (language : String)
    (targetFilePath : String) (oracle : String → Option String) :
    Except String AnalysisResult :=
  match getRepositoryFiles fetched with
  | Except.error e => Except.error e
  | Except.ok files =>
    match filterFilesByLanguage files language with
    | Except.error e => Except.error e
    | Except.ok relevantFiles =>
      Except.ok { dependencies := findDependencies oracle relevantFiles targetFilePath,
                  filesAnalyzed := relevantFiles.length }

/-- Embeds the UI read `dep.depth || 0` (content script, overlay rendering). -/
def recordDepth (r : DepRecord) : Nat := r.depth.getD 0

/-- Content oracle for the end-to-end scenario of the spec: `src/b.js` and
    `src/c.js` each hold one static import of `./a`. -/
def oracleABC : String → Option String := fun f =>
  if f = "src/b.js" then some ("import x from " ++ quoteS ++ "./a" ++ quoteS)
  else if f = "src/c.js" then some ("import y from " ++ quoteS ++ "./a" ++ quoteS)
  else none

/-- The end-to-end scenario run: three files, target `src/a.js`. -/
def runABC : Except String AnalysisResult :=
  handleAnalyzeDependencies (some ["src/a.js", "src/b.js", "src/c.js"]) "javascript"
    "src/a.js" oracleABC

/-- Content oracle for the cyclic graph: `A.js` holds an import of `C.js`,
    `B.js` one of `A.js`, `C.js` one of `B.js` (each file imports the next
    along the cycle, by explicit repository-relative specifier). -/
def oracleCycle : String → Option String := fun f =>
  if f = "A.js" then some ("import c from " ++ quoteS ++ "C.js" ++ quoteS)
  else if f = "B.js" then some ("import a from " ++ quoteS ++ "A.js" ++ quoteS)
  else if f = "C.js" then some ("import b from " ++ quoteS ++ "B.js" ++ quoteS)
  else none

/-- The cyclic-graph run with target `A.js`. -/
def runCycle : Except String AnalysisResult :=
  handleAnalyzeDependencies (some ["A.js", "B.js", "C.js"]) "javascript" "A.js" oracleCycle

/-- Content oracle for the case-tolerance scenario: `a.js` holds one
    static-import line whose specifier is `Src/Util.JS` (mixed case). -/
def oracleCase : String → Option String := fun f =>
  if f = "a.js" then some ("import u from " ++ quoteS ++ "Src/Util.JS" ++ quoteS)
  else none

/-- The case-tolerance run with target `src/util.js`. -/
def runCase : Except String AnalysisResult :=
  handleAnalyzeDependencies (some ["src/util.js", "a.js"]) "javascript" "src/util.js"
    oracleCase


/-- Any record produced by `analyzeFileForImports` names the analyzed file,
    carries no depth field, and the analyzed file is not the target. -/
theorem analyze_some_props {oracle : String → Option String} {f t tb : String}
    {r : DepRecord} (h : analyzeFileForImports oracle f t tb = some r) :
    r.file = f ∧ r.depth = none ∧ f ≠ t := by
  unfold analyzeFileForImports at h
  by_cases hft : f = t
  · rw [if_pos hft] at h
    exact absurd h (by simp)
  · rw [if_neg hft] at h
    cases ho : oracle f with
    | none => rw [ho] at h; exact absurd h (by simp)
    | some content =>
      rw [ho] at h
      dsimp only at h
      by_cases hc : content = ""
      · rw [if_pos hc] at h
        exact absurd h (by simp)
      · rw [if_neg hc] at h
        by_cases hl : (parseImports content t tb f).length > 0
        · rw [if_pos hl] at h
          have h2 := Option.some.inj h
          exact ⟨by rw [← h2], by rw [← h2], hft⟩
        · rw [if_neg hl] at h
          exact absurd h (by simp)

/-- Every record in the output of `findDependencies` comes from a successful
    `analyzeFileForImports` call on some candidate file. -/
theorem mem_findDeps {oracle : String → Option String} {files : List String}
    {tgt : String} {r : DepRecord} (h : r ∈ findDependencies oracle files tgt) :
    ∃ f, analyzeFileForImports oracle f tgt (stripExtAll (lastSeg tgt '/')) = some r := by
  unfold findDependencies at h
  rw [List.mem_flatten] at h
  obtain ⟨L, hL, hrL⟩ := h
  rw [List.mem_map] at hL
  obtain ⟨batch, hb, rfl⟩ := hL
  rw [List.mem_filterMap] at hrL
  obtain ⟨res, hres, hsel⟩ := hrL
  rw [List.mem_map] at hres
  obtain ⟨f, hf, rfl⟩ := hres
  refine ⟨f, ?_⟩
  cases ha : analyzeFileForImports oracle f tgt (stripExtAll (lastSeg tgt '/')) with
  | none => rw [ha] at hsel; exact absurd hsel (by simp)
  | some rr =>
    rw [ha] at hsel
    dsimp only at hsel
    split at hsel
    · exact hsel
    · exact absurd hsel (by simp)

/-- A line on which none of the four matchers fires contributes no records. -/
theorem lineImports_none {line : String} {n : Nat} {t tb cd td : String}
    (h1 : importMatch line = none) (h2 : requireMatch line = none)
    (h3 : pyFromMatch line = none) (h4 : pyImportMatch line = none) :
    lineImports line n t tb cd td = [] := by
  unfold lineImports
  rw [h1, h2, h3, h4]
  rfl

/-- Stripping the regex-matched `.py` suffix undoes appending `.py`. -/
theorem stripPy_append (s : String) : stripPy (s ++ ".py") = s := by
  unfold stripPy
  have h1 : (s ++ ".py").toList = s.toList ++ ['.', 'p', 'y'] := String.data_append s ".py"
  rw [h1, List.reverse_append]
  show String.mk (stripPyR ('y' :: 'p' :: '.' :: s.toList.reverse)).reverse = s
  show String.mk (s.toList.reverse).reverse = s
  rw [List.reverse_reverse]
  rfl

/-- C1: on the spec's end-to-end scenario (files `src/a.js`, `src/b.js`,
    `src/c.js`; `src/b.js` and `src/c.js` each containing one line that
    statically imports `./a` in single quotes; target `src/a.js`; language
    `javascript`) the claim expects two dependent records at depth 1 and
    `filesAnalyzed = 3`. Evaluating the embedded code at exactly this input
    yields NO dependent records at all (with `filesAnalyzed = 3`):
    `isTargetImport` strips the leading dot-slash from the specifier before
    handing it to `resolveImportPath`, whose dot-slash branch is therefore
    unreachable, so `./a` resolves to `a` instead of `src/a` and never
    matches the target. -/
theorem c1_end_to_end_scenario : runABC = Except.ok ⟨[], 3⟩ := by rfl

/-- C2: relative-specifier resolution in `resolveImportPath`. A `./sibling`
    specifier from directory `a/b` resolves to `a/b/sibling` and a
    `../sibling` specifier to `a/sibling`; in general a dot-slash specifier
    is resolved by concatenation onto the importing directory, and each
    leading `../` pops exactly one directory segment before concatenation. -/
theorem c2_relative_resolution :
    resolveImportPath "./sibling" "a/b" = "a/b/sibling" ∧
    resolveImportPath "../sibling" "a/b" = "a/sibling" ∧
    (∀ (rest dir : List Char), resolveCore ('.' :: '/' :: rest) dir = dir ++ '/' :: rest) ∧
    (∀ (parts : List (List Char)) (rest : List Char),
      popLoop parts ('.' :: '.' :: '/' :: rest) = popLoop parts.dropLast rest) :=
  ⟨by decide, by decide, fun rest dir => rfl, fun parts rest => rfl⟩

/-- C3 counterexample: the claim asserts that at non-zero depth an index key
    `Src/Util.JS` matches a lookup for `src/util.js` via loose normalization
    (lowercasing, extension stripping). The code's only specifier-to-target
    matcher, `isTargetImport`, rejects exactly this pair: matching is
    case-sensitive (the extension regex does not strip `.JS` and no
    lowercasing is applied). -/
theorem c3_loose_match_refuted :
    isTargetImport "Src/Util.JS" "src/util.js" "util" "" "src" = false := by decide

/-- C3 amended: matching of import specifiers against the target is
    single-level and case-sensitive everywhere - there is no depth-one-or-
    greater lookup in the code at all. An exact (raw) path match succeeds,
    while the mixed-case specifier `Src/Util.JS` does not match target
    `src/util.js`; end to end, a file importing `Src/Util.JS` produces no
    dependent record for target `src/util.js`. -/
theorem c3_case_sensitive_single_level :
    isTargetImport "src/util.js" "src/util.js" "util" "" "src" = true ∧
    runCase = Except.ok ⟨[], 2⟩ :=
  ⟨by decide, by rfl⟩

/-- C4 counterexample: for the cyclic import graph A→B→C→A (oracleCycle:
    `B.js` imports `A.js`, `C.js` imports `B.js`, `A.js` imports `C.js`),
    the claim expects dependents B at depth 1, C at depth 2 and A at
    depth 3. Evaluating the embedded analysis at this input returns exactly
    one record, for `B.js`; neither `C.js` nor `A.js` is ever reported, and
    no record carries any depth. -/
theorem c4_cycle_refuted :
    runCycle = Except.ok ⟨[⟨"B.js", [⟨"import", "a", "A.js", 1⟩], none⟩], 3⟩ := by rfl

/-- C4 amended: on the cyclic graph A→B→C→A the analysis terminates (it is
    a single bounded pass, not a BFS) and yields exactly the direct importer
    `B.js` as the only dependent record; transitive dependents are not
    computed, so C and A do not appear at any depth. -/
theorem c4_cycle_terminates_direct_only :
    ∃ res, runCycle = Except.ok res ∧
      res.dependencies.map (fun r => r.file) = ["B.js"] ∧
      res.dependencies.length = 1 ∧ res.filesAnalyzed = 3 :=
  ⟨⟨[⟨"B.js", [⟨"import", "a", "A.js", 1⟩], none⟩], 3⟩, by rfl, by rfl, by rfl, by rfl⟩

/-- C5: in every analysis run the emitted dependent records are in
    non-decreasing depth order. The code constructs every record without a
    depth field (read downstream as `dep.depth || 0` = `recordDepth`), so
    the sequence of depths is constant and in particular non-decreasing. -/
theorem c5_depth_nondecreasing (oracle : String → Option String)
    (files : List String) (tgt : String) :
    (∀ r ∈ findDependencies oracle files tgt, r.depth = none) ∧
    List.Sorted (· ≤ ·) ((findDependencies oracle files tgt).map recordDepth) := by
  have hall : ∀ r ∈ findDependencies oracle files tgt, r.depth = none := by
    intro r hr
    obtain ⟨f, hf⟩ := mem_findDeps hr
    exact (analyze_some_props hf).2.1
  refine ⟨hall, ?_⟩
  have hmap : (findDependencies oracle files tgt).map recordDepth =
      (findDependencies oracle files tgt).map fun _ => 0 := by
    apply List.map_congr_left
    intro r hr
    simp [recordDepth, hall r hr]
  rw [hmap]
  have hpw : List.Pairwise (fun _ _ => True) (findDependencies oracle files tgt) := by
    induction findDependencies oracle files tgt with
    | nil => exact List.Pairwise.nil
    | cons a t ih => exact List.Pairwise.cons (fun _ _ => trivial) ih
  exact List.pairwise_map.mpr (hpw.imp fun _ => Nat.le_refl 0)

/-- C6: error-handling policy. A failed or absent content fetch for one
    candidate file contributes no record and never aborts the analysis
    (first conjunct, and `analyzeFileForImports` is total); a failed file
    listing propagates as the single descriptive terminal error (second
    conjunct); and after a successful listing the caller receives either
    the complete result object for the filtered file set (third conjunct)
    or the single error rethrown from the filter phase (fourth conjunct,
    the TypeError path for prototype-member language tags) - never a
    partial result, as the `Except` result type also reflects. -/
theorem c6_error_policy :
    (∀ (oracle : String → Option String) (f t tb : String),
      oracle f = none → analyzeFileForImports oracle f t tb = none) ∧
    (∀ (language tgt : String) (oracle : String → Option String),
      handleAnalyzeDependencies none language tgt oracle =
        Except.error
          "Failed to fetch repository structure. You may need to authenticate for private repos.") ∧
    (∀ (fs : List String) (language tgt : String) (oracle : String → Option String)
      (rel : List String), filterFilesByLanguage fs language = Except.ok rel →
      handleAnalyzeDependencies (some fs) language tgt oracle =
        Except.ok ⟨findDependencies oracle rel tgt, rel.length⟩) ∧
    (∀ (fs : List String) (language tgt : String) (oracle : String → Option String)
      (e : String), filterFilesByLanguage fs language = Except.error e →
      handleAnalyzeDependencies (some fs) language tgt oracle = Except.error e) := by
  refine ⟨?_, fun _ _ _ => rfl, ?_, ?_⟩
  · intro oracle f t tb h
    unfold analyzeFileForImports
    by_cases hft : f = t
    · rw [if_pos hft]
    · rw [if_neg hft, h]
  · intro fs language tgt oracle rel h
    unfold handleAnalyzeDependencies getRepositoryFiles
    dsimp only
    rw [h]
  · intro fs language tgt oracle e h
    unfold handleAnalyzeDependencies getRepositoryFiles
    dsimp only
    rw [h]

/-- C6 witness: the policy instantiated concretely - a failing content
    oracle contributes nothing, a good listing with language `javascript`
    yields the complete result, and the prototype-member tag `toString`
    surfaces the filter TypeError as the single error. -/
theorem c6_error_policy_witness :
    analyzeFileForImports (fun _ => none) "x.js" "t.js" "t" = none ∧
    handleAnalyzeDependencies (some ["a.js"]) "javascript" "t.js" (fun _ => none) =
      Except.ok ⟨findDependencies (fun _ => none) ["a.js"] "t.js", 1⟩ ∧
    handleAnalyzeDependencies (some ["a.js"]) "toString" "t.js" (fun _ => none) =
      Except.error "relevantExts.includes is not a function" :=
  ⟨c6_error_policy.1 (fun _ => none) "x.js" "t.js" "t" rfl,
   c6_error_policy.2.2.1 ["a.js"] "javascript" "t.js" (fun _ => none) ["a.js"] (by rfl),
   c6_error_policy.2.2.2 ["a.js"] "toString" "t.js" (fun _ => none)
     "relevantExts.includes is not a function" (by rfl)⟩

/-- C7: Python dotted-module resolution. The dotted module `pkg.mod`
    matches the target file `pkg/mod.py`, and in general every dotted
    module `m` matches the file path obtained by replacing each dot by a
    slash and appending the `.py` suffix (the code compares the converted
    module against the target with its regex-stripped `.py` suffix, which
    is the same relation). -/
theorem c7_python_resolution :
    isPythonTargetImport "pkg.mod" "pkg/mod.py" "mod" "" = true ∧
    (∀ m targetBaseName currentDir : String,
      isPythonTargetImport m (pyModulePath m ++ ".py") targetBaseName currentDir = true) := by
  refine ⟨by decide, ?_⟩
  intro m tb cd
  unfold isPythonTargetImport
  rw [stripPy_append]
  rw [if_pos rfl]

/-- At any start index, a run of lines on which no matcher fires parses to
    the empty record list. -/
theorem parseLines_none (t tb cd td : String) :
    ∀ (idx : Nat) (ls : List String),
      (∀ l ∈ ls, importMatch l = none ∧ requireMatch l = none ∧ pyFromMatch l = none ∧
        pyImportMatch l = none) →
      parseLines t tb cd td idx ls = []
  | _, [], _ => rfl
  | idx, a :: rest, h => by
    have ha := h a (List.mem_cons_self a rest)
    unfold parseLines
    rw [lineImports_none ha.1 ha.2.1 ha.2.2.1 ha.2.2.2, List.nil_append]
    exact parseLines_none t tb cd td (idx + 1) rest fun l hl =>
      h l (List.mem_cons_of_mem a hl)

/-- C8: a file none of whose lines fires any of the four recognized import
    matchers yields an empty extraction; the extraction is a total function
    so malformed lines can raise no error. -/
theorem c8_no_pattern_empty (content targetFilePath targetBaseName currentFilePath : String)
    (h : ∀ l ∈ jsSplit content '\n',
      importMatch l = none ∧ requireMatch l = none ∧ pyFromMatch l = none ∧
        pyImportMatch l = none) :
    parseImports content targetFilePath targetBaseName currentFilePath = [] := by
  unfold parseImports
  exact parseLines_none targetFilePath targetBaseName (dirOf currentFilePath)
    (dirOf targetFilePath) 0 (jsSplit content '\n') h

/-- C8 witness: concrete content with no import-like line. -/
theorem c8_no_pattern_empty_witness :
    parseImports "hello\nworld" "t.js" "t" "a.js" = [] :=
  c8_no_pattern_empty "hello\nworld" "t.js" "t" "a.js" (by decide)

/-- C9: the target file is never reported as its own dependent: every
    record in the output of `findDependencies` names a file different from
    the target (the candidate equal to the target is skipped before any
    fetch or parse). -/
theorem c9_target_never_dependent (oracle : String → Option String)
    (files : List String) (tgt : String) :
    ∀ r ∈ findDependencies oracle files tgt, r.file ≠ tgt := by
  intro r hr
  obtain ⟨f, hf⟩ := mem_findDeps hr
  obtain ⟨hfile, _, hne⟩ := analyze_some_props hf
  rw [hfile]
  exact hne

/-- C9 witness: in the cyclic scenario the record that is emitted names
    `B.js`, not the target `A.js`. -/
theorem c9_target_never_dependent_witness :
    (⟨"B.js", [⟨"import", "a", "A.js", 1⟩], none⟩ : DepRecord).file ≠ "A.js" :=
  c9_target_never_dependent oracleCycle ["A.js", "B.js", "C.js"] "A.js"
    ⟨"B.js", [⟨"import", "a", "A.js", 1⟩], none⟩ (by decide)

/-- C10 counterexample: the claim asserts that EVERY language tag outside
    the recognized set silently falls back to the JavaScript extension set.
    At the out-of-set tag `toString` the bracket lookup finds the truthy
    function inherited from `Object.prototype`, the fallback is skipped,
    and the filter throws a TypeError on a nonempty file list instead of
    filtering with the JavaScript set (which, for `javascript` itself,
    would keep `a.js`). -/
theorem c10_proto_member_refuted :
    filterFilesByLanguage ["a.js"] "toString" =
      Except.error "relevantExts.includes is not a function" ∧
    filterFilesByLanguage ["a.js"] "javascript" = Except.ok ["a.js"] :=
  ⟨by rfl, by rfl⟩

/-- C10 amended: for every language tag outside the recognized set that is
    not an `Object.prototype` member name, the filter silently falls back
    to the JavaScript extension set and behaves exactly as for
    `javascript`; for out-of-set tags that name an `Object.prototype`
    member, the inherited truthy value short-circuits the fallback and the
    filter throws a TypeError on any nonempty file list. -/
theorem c10_fallback_or_proto_error :
    (∀ (language : String) (files : List String),
      language ∉ ["javascript", "typescript", "python", "jsx", "tsx"] →
      language ∉ objectProtoMembers →
      relevantExts language = RelevantExts.arr [".js", ".jsx", ".mjs"] ∧
      filterFilesByLanguage files language = filterFilesByLanguage files "javascript") ∧
    (∀ (language f : String) (files : List String),
      language ∉ ["javascript", "typescript", "python", "jsx", "tsx"] →
      language ∈ objectProtoMembers →
      filterFilesByLanguage (f :: files) language =
        Except.error "relevantExts.includes is not a function") := by
  constructor
  · intro language files h hp
    simp only [List.mem_cons, List.not_mem_nil, or_false, not_or] at h
    obtain ⟨h1, h2, h3, h4, h5⟩ := h
    have he : extensionsTable language = ExtLookup.undef := by
      unfold extensionsTable
      rw [if_neg h1, if_neg h2, if_neg h3, if_neg h4, if_neg h5, if_neg hp]
    have hr : relevantExts language = RelevantExts.arr [".js", ".jsx", ".mjs"] := by
      unfold relevantExts
      rw [he]
    refine ⟨hr, ?_⟩
    unfold filterFilesByLanguage
    rw [hr]
    rfl
  · intro language f files h hp
    simp only [List.mem_cons, List.not_mem_nil, or_false, not_or] at h
    obtain ⟨h1, h2, h3, h4, h5⟩ := h
    have he : extensionsTable language = ExtLookup.inherited := by
      unfold extensionsTable
      rw [if_neg h1, if_neg h2, if_neg h3, if_neg h4, if_neg h5, if_pos hp]
    have hr : relevantExts language = RelevantExts.nonArray := by
      unfold relevantExts
      rw [he]
    unfold filterFilesByLanguage
    rw [hr]

/-- C10 witness: the fallback at the out-of-set, non-prototype tag `ruby`,
    and the TypeError at the out-of-set prototype member `toString`. -/
theorem c10_fallback_or_proto_error_witness :
    (relevantExts "ruby" = RelevantExts.arr [".js", ".jsx", ".mjs"] ∧
      filterFilesByLanguage ["a.js", "b.py"] "ruby" =
        filterFilesByLanguage ["a.js", "b.py"] "javascript") ∧
    filterFilesByLanguage ["b.py"] "toString" =
      Except.error "relevantExts.includes is not a function" :=
  ⟨c10_fallback_or_proto_error.1 "ruby" ["a.js", "b.py"] (by decide) (by decide),
   c10_fallback_or_proto_error.2 "toString" "b.py" [] (by decide) (by decide)⟩
